import Mathlib

/-!
Verification of the honeybeePF observability agent against its
natural-language specification.  The Rust sources are shallowly embedded:
byte buffers become `List Nat` (each element < 256), machine integers
become `Nat`/`Int` with explicit `% 2 ^ 64` where wrapping matters, and
fallible code returns `Option`/`Except`.
-/

set_option maxRecDepth 4000

namespace HoneybeePF

/-! ### FNV-1a hash (file-access watched paths)

User side: `honeybeepf/src/probes/builtin/filesystem/file_access.rs`,
`fn simple_hash(data: &[u8]) -> u64`.
Kernel side: `honeybeepf-ebpf/src/probes/builtin/file_access.rs`,
`fn simple_hash(data: &[u8; MAX_FILENAME_LEN]) -> u64`.
-/

/-- Modelled from the spec: the constant `MAX_FILENAME_LEN` is imported by
the eBPF code from `honeybeepf-common`, but its definition is absent from
the sources provided.  The spec fixes the kernel filename buffer and hash
bound at 256 bytes ("stopping at the first NUL or at length 256"). -/
def MAX_FILENAME_LEN : Nat := 256

/-- 2^64, the modulus of wrapping `u64` arithmetic. -/
def U64 : Nat := 18446744073709551616

/-- FNV offset basis `0xcbf29ce484222325`. -/
def FNV_OFFSET_BASIS : Nat := 0xcbf29ce484222325

/-- FNV prime `0x100000001b3`. -/
def FNV_PRIME : Nat := 0x100000001b3

/-- One FNV-1a step: XOR the byte in, then wrapping-multiply by the prime
(`hash ^= b as u64; hash = hash.wrapping_mul(0x100000001b3)`). -/
def fnvStep (h b : Nat) : Nat := ((h ^^^ b) * FNV_PRIME) % U64

/-- Loop of the user-space `simple_hash`: iterate over the slice, breaking
at the first NUL byte. -/
def simpleHashLoop : List Nat → Nat → Nat
  | [], h => h
  | b :: rest, h => if b = 0 then h else simpleHashLoop rest (fnvStep h b)

/-- User-space `simple_hash(data: &[u8])`: FNV-1a over the path bytes,
stopping at the first NUL or at the end of the slice. -/
def simple_hash (data : List Nat) : Nat := simpleHashLoop data FNV_OFFSET_BASIS

/-- Loop of the kernel-side `simple_hash`: `while i < MAX_FILENAME_LEN`
with a break at the first NUL.  The first argument is the remaining
iteration budget `MAX_FILENAME_LEN - i`; the list is the rest of the
fixed-size buffer. -/
def ebpfHashLoop : Nat → List Nat → Nat → Nat
  | 0, _, h => h
  | _ + 1, [], h => h
  | fuel + 1, b :: rest, h => if b = 0 then h else ebpfHashLoop fuel rest (fnvStep h b)

/-- Kernel-side `simple_hash(data: &[u8; MAX_FILENAME_LEN])`.  The argument
models the 256-byte filename buffer. -/
def ebpf_simple_hash (buf : List Nat) : Nat :=
  ebpfHashLoop MAX_FILENAME_LEN buf FNV_OFFSET_BASIS

/-- The zero-initialised kernel stack buffer (`[0u8; MAX_FILENAME_LEN]`)
after the path bytes `s` have been copied into it. -/
def kernelBuffer (s : List Nat) : List Nat :=
  s ++ List.replicate (MAX_FILENAME_LEN - s.length) 0

/-! ### Engine construction and the memlock rlimit

`honeybeepf/src/lib.rs`: `bump_memlock_rlimit` and `HoneyBeeEngine::new`.
-/

/-- `bump_memlock_rlimit()`: the argument is the return value of the raw
`libc::setrlimit` call.  The function logs a warning when that value is
nonzero and returns `Ok(())` in every case; the pair's second component is
the list of warnings logged. -/
def bump_memlock_rlimit (setrlimitRet : Int) : Except String Unit × List String :=
  if setrlimitRet ≠ 0 then (Except.ok (), ["Failed to increase rlimit"])
  else (Except.ok (), [])

/-- `HoneyBeeEngine::new(settings, bytecode)`, abstracting the engine value
to `Unit`: propagate `bump_memlock_rlimit()?`, then `Ebpf::load(bytecode)?`
(whose outcome is the `loadResult` argument); a failing `EbpfLogger::init`
is only warned about and never propagated. -/
def engine_new (setrlimitRet : Int) (loadResult : Except String Unit) :
    Except String Unit := do
  (bump_memlock_rlimit setrlimitRet).1
  loadResult

/-! ### Byte utilities (`honeybeepf/src/probes/builtin/llm/http/utils.rs`) -/

/-- `find_pattern(haystack, needle)`:
`haystack.windows(needle.len()).position(|w| w == needle)`.  The window at
index `i` is `(haystack.drop i).take needle.length`; windows exist for
`i < haystack.len() + 1 - needle.len()`. -/
def find_pattern {α : Type} [DecidableEq α] (haystack needle : List α) : Option Nat :=
  (List.range (haystack.length + 1 - needle.length)).find?
    (fun i => decide ((haystack.drop i).take needle.length = needle))

/-- `contains_pattern(haystack, needle)`. -/
def contains_pattern {α : Type} [DecidableEq α] (haystack needle : List α) : Bool :=
  (find_pattern haystack needle).isSome

/-- The two-byte sequence `\r\n`. -/
def CRLF : List Nat := [13, 10]

/-- The slice `buffer[a..b]` of a byte buffer. -/
def slice (buffer : List Nat) (a b : Nat) : List Nat :=
  (buffer.drop a).take (b - a)

/-- Bytes that `str::trim` removes when the size line is ASCII
(TAB, LF, VT, FF, CR, SPACE). -/
def isTrimByte (b : Nat) : Bool :=
  b = 9 || b = 10 || b = 11 || b = 12 || b = 13 || b = 32

/-- `str::trim` over an ASCII byte string: drop whitespace from both ends. -/
def trimBytes (l : List Nat) : List Nat :=
  ((l.dropWhile isTrimByte).reverse.dropWhile isTrimByte).reverse

/-- Value of one ASCII hex digit (`0-9`, `a-f`, `A-F`). -/
def hexDigitVal (b : Nat) : Option Nat :=
  if 48 ≤ b ∧ b ≤ 57 then some (b - 48)
  else if 97 ≤ b ∧ b ≤ 102 then some (b - 87)
  else if 65 ≤ b ∧ b ≤ 70 then some (b - 55)
  else none

/-- `usize::from_str_radix(s, 16)` over the bytes of `s`: an optional
leading `+`, then at least one hex digit, with an error when the value
overflows `u64` (the decoder's chunk sizes are `usize`, 64-bit here).
Any non-ASCII byte in the source's lossily decoded size line turns into a
replacement character and fails the digit test, as it does here. -/
def fromStrRadix16 (l : List Nat) : Option Nat :=
  match l with
  | [] => none
  | b :: rest =>
    let digits := if b = 43 then rest else b :: rest
    if digits = [] then none
    else
      (digits.foldlM (fun acc d => (hexDigitVal d).map (fun v => acc * 16 + v)) 0).bind
        (fun n => if n < U64 then some n else none)

/-- Loop of `decode_chunked_body`: repeatedly parse `<hexsize>\r\n<data>\r\n`
frames from `pos`, stopping on a missing CRLF, an unparsable size, or a
zero-size chunk, and appending the remaining bytes when a chunk is
truncated at the tail.  `fuel` is an iteration budget; each iteration
advances `pos` by at least 4, so `buffer.length + 1` is always enough. -/
def decodeChunkedLoop (buffer : List Nat) : Nat → Nat → List Nat → List Nat
  | _, 0, acc => acc
  | pos, fuel + 1, acc =>
    if pos < buffer.length then
      match find_pattern (buffer.drop pos) CRLF with
      | none => acc
      | some i =>
        let sizeEnd := pos + i
        match fromStrRadix16 (trimBytes (slice buffer pos sizeEnd)) with
        | none => acc
        | some chunkSize =>
          if chunkSize = 0 then acc
          else
            let dataStart := sizeEnd + 2
            let dataEnd := dataStart + chunkSize
            if dataEnd > buffer.length then acc ++ buffer.drop dataStart
            else decodeChunkedLoop buffer (dataEnd + 2) fuel (acc ++ slice buffer dataStart dataEnd)
    else acc

/-- `decode_chunked_body(buffer)`: return the buffer unchanged when it
contains no CRLF, otherwise run the frame loop; when the loop produced
nothing, return the original buffer. -/
def decode_chunked_body (buffer : List Nat) : List Nat :=
  if ¬ contains_pattern buffer CRLF then buffer
  else
    let result := decodeChunkedLoop buffer 0 (buffer.length + 1) []
    if result = [] then buffer else result

/-- A correct chunk encoding of a list of data chunks, used to state the
chunked-decoder claim: each chunk becomes `<hexsize>\r\n<data>\r\n` and the
stream is terminated by the zero-size chunk `0\r\n\r\n`.  `sizeBytes`
supplies the hex spelling of each size. -/
def chunkEncode (sizeBytes : Nat → List Nat) (chunks : List (List Nat)) : List Nat :=
  (chunks.map (fun c => sizeBytes c.length ++ CRLF ++ c ++ CRLF)).flatten
    ++ [48] ++ CRLF ++ CRLF

/-- Hex rendering loop (most significant digit first), used by
`hexBytes`. -/
def hexBytesAux : Nat → Nat → List Nat → List Nat
  | 0, _, acc => acc
  | _ + 1, 0, acc => acc
  | fuel + 1, n, acc => hexBytesAux fuel (n / 16)
      ((if n % 16 < 10 then 48 + n % 16 else 87 + n % 16) :: acc)

/-- Lowercase ASCII hex spelling of `n` (the spelling `"0"` for zero). -/
def hexBytes (n : Nat) : List Nat :=
  if n = 0 then [48] else hexBytesAux (n + 1) n []

/-! ### HTTP/2 balanced-brace JSON extractor
(`honeybeepf/src/probes/builtin/llm/http/utils.rs`,
`extract_h2_json_all` and `find_balanced_brace`)

The source first runs `String::from_utf8_lossy` over the buffer; that map
is the identity on valid UTF-8, and all bytes the scanner inspects
(`{ } " \`) are ASCII, so the embedding works on the byte list directly. -/

/-- Scanner loop of `find_balanced_brace`: walk the remaining bytes with
the absolute index `i`, the brace `depth` (an `i32`, so it may go
negative), and the `inString`/`escape` flags. -/
def fbbAux : List Nat → Nat → Int → Bool → Bool → Option Nat
  | [], _, _, _, _ => none
  | b :: rest, i, depth, inString, escape =>
    if escape then fbbAux rest (i + 1) depth inString false
    else if b = 92 ∧ inString then fbbAux rest (i + 1) depth inString true
    else if b = 34 then fbbAux rest (i + 1) depth (!inString) escape
    else if inString then fbbAux rest (i + 1) depth inString escape
    else if b = 123 then fbbAux rest (i + 1) (depth + 1) inString escape
    else if b = 125 then
      (if depth - 1 = 0 then some i else fbbAux rest (i + 1) (depth - 1) inString escape)
    else fbbAux rest (i + 1) depth inString escape

/-- `find_balanced_brace(bytes, start)`: index of the closing brace of the
balanced `{...}` starting at `start`. -/
def find_balanced_brace (bytes : List Nat) (start : Nat) : Option Nat :=
  fbbAux (bytes.drop start) start 0 false false

/-- `str::find('{')` over bytes: index of the first `{`. -/
def findOpenBrace : List Nat → Option Nat
  | [] => none
  | b :: rest => if b = 123 then some 0 else (findOpenBrace rest).map (· + 1)

/-- Loop of `extract_h2_json_all`: starting at `searchPos`, find the next
`{`; when it opens a balanced object, emit the slice and continue after
its closing brace, otherwise continue after the `{`.  `fuel` is an
iteration budget; `searchPos` strictly increases each round, so
`bytes.length + 1` is always enough. -/
def extractAllAux (bytes : List Nat) : Nat → Nat → List (List Nat)
  | _, 0 => []
  | searchPos, fuel + 1 =>
    match findOpenBrace (bytes.drop searchPos) with
    | none => []
    | some off =>
      let start := searchPos + off
      match find_balanced_brace bytes start with
      | none => extractAllAux bytes (start + 1) fuel
      | some e => slice bytes start (e + 1) :: extractAllAux bytes (e + 1) fuel

/-- `extract_h2_json_all(buffer)`: all balanced JSON objects, in order. -/
def extract_h2_json_all (buffer : List Nat) : List (List Nat) :=
  extractAllAux buffer 0 (buffer.length + 1)

/-- Body of a JSON string literal as the scanner sees it: a sequence of
bytes other than `"` and `\`, and `\`-escaped pairs. -/
inductive StrBody : List Nat → Prop
  | nil : StrBody []
  | plain (b : Nat) (body : List Nat) : b ≠ 34 → b ≠ 92 → StrBody body →
      StrBody (b :: body)
  | esc (b : Nat) (body : List Nat) : StrBody body → StrBody (92 :: b :: body)

/-- Balanced tokens (`Bal true`) and balanced token sequences (`Bal false`)
over the scanner's alphabet: a token is a byte other than `{ } "`, a
complete string literal, or a brace-balanced object whose interior is a
balanced sequence.  Every valid JSON object whose string literals contain
no lone `"` is a `Bal true` token of the `obj` form. -/
inductive Bal : Bool → List Nat → Prop
  | plain (b : Nat) : b ≠ 123 → b ≠ 125 → b ≠ 34 → Bal true [b]
  | str (body : List Nat) : StrBody body → Bal true (34 :: body ++ [34])
  | obj (inner : List Nat) : Bal false inner → Bal true (123 :: inner ++ [125])
  | nil : Bal false []
  | cons (t rest : List Nat) : Bal true t → Bal false rest → Bal false (t ++ rest)

/-- A well-formed JSON object in the sense of the brace scanner. -/
def JsonObj (l : List Nat) : Prop :=
  ∃ inner, Bal false inner ∧ l = 123 :: inner ++ [125]

/-! ### TLS stream processor
(`honeybeepf/src/probes/builtin/llm/processor.rs`)

`Instant` timestamps (`start_time`, `last_activity`) carry no
program-visible information for the claims and are omitted.  The two
concrete `ProtocolParser` implementations are HTTP libraries external to
this repository (`httparse`, `serde_json`, `tiktoken`), so the processor
is parameterised over their observable behaviour, mirrroring the
`Box<dyn ProtocolParser>` trait object of the source. -/

/-- `MAX_REQUEST_BUFFER_SIZE`: 8 MiB. -/
def MAX_REQUEST_BUFFER_SIZE : Nat := 8 * 1024 * 1024

/-- `MAX_RESPONSE_BUFFER_SIZE`: 16 MiB. -/
def MAX_RESPONSE_BUFFER_SIZE : Nat := 16 * 1024 * 1024

/-- `DETECTION_BUFFER_THRESHOLD`: give up detection after 4 KiB. -/
def DETECTION_BUFFER_THRESHOLD : Nat := 4096

/-- `MAX_SSL_BUF_SIZE` from `honeybeepf-common`. -/
def MAX_SSL_BUF_SIZE : Nat := 4096

/-- `LlmDirection` from `honeybeepf-common`. -/
inductive LlmDirection
  | Read
  | Write
  | Handshake
  | Unknown
deriving DecidableEq, Repr

/-- `impl From<u8> for LlmDirection`. -/
def LlmDirection.ofU8 (v : Nat) : LlmDirection :=
  if v = 0 then .Read else if v = 1 then .Write
  else if v = 2 then .Handshake else .Unknown

/-- Observable behaviour of one `ProtocolParser` trait object. -/
structure ParserImpl where
  detect_request : List Nat → Option (List Nat)
  extract_request_text : List Nat → List Nat
  parse_response : List Nat → Option Unit

/-- The two parser implementations that the processor ever stores
(`Box::new(http::Http11Parser)` / `Box::new(http::Http2Parser)`). -/
inductive ParserKind
  | http11
  | http2
deriving DecidableEq, Repr

/-- The environment of external parsing behaviour: the two parsers and the
`tiktoken` byte-pair encoder used for input-token estimation. -/
structure ParserEnv where
  h1 : ParserImpl
  h2 : ParserImpl
  bpeCount : List Nat → Nat

/-- Resolve a stored parser tag to its implementation. -/
def ParserEnv.get (P : ParserEnv) : ParserKind → ParserImpl
  | .http11 => P.h1
  | .http2 => P.h2

/-- `ProcessorState`. -/
inductive ProcessorState
  | Detecting
  | ProcessingRequest (parserKind : ParserKind)
  | ProcessingResponse (parserKind : ParserKind) (est_input_tokens : Nat)
  | Finished
deriving DecidableEq, Repr

/-- `StreamProcessor` (timestamps omitted). -/
structure StreamProcessor where
  state : ProcessorState
  write_buf : List Nat
  read_buf : List Nat
deriving DecidableEq, Repr

/-- `StreamProcessor::new` / `Default::default()`. -/
def StreamProcessor.new : StreamProcessor :=
  { state := .Detecting, write_buf := [], read_buf := [] }

/-- `StreamProcessor::reset`: back to `Detecting` with both buffers
cleared. -/
def StreamProcessor.reset (p : StreamProcessor) : StreamProcessor :=
  { p with state := .Detecting, write_buf := [], read_buf := [] }

/-- The `ProcessorState::Detecting` arm of the state machine: try the
HTTP/1.1 detector, then the HTTP/2 detector, on the write buffer; give up
(`Finished`) once the buffer passes the detection threshold. -/
def detectTransition (P : ParserEnv) (write_buf : List Nat) : ProcessorState :=
  match P.h1.detect_request write_buf with
  | some _ => .ProcessingRequest .http11
  | none =>
    match P.h2.detect_request write_buf with
    | some _ => .ProcessingRequest .http2
    | none =>
      if write_buf.length > DETECTION_BUFFER_THRESHOLD then .Finished
      else .Detecting

/-- Step 2 of `handle_event` (the state-machine transition) applied to the
processor after buffer management.  Buffers are only read here, never
written. -/
def stateTransition (P : ParserEnv) (direction : LlmDirection)
    (p : StreamProcessor) : StreamProcessor :=
  match p.state with
  | .Detecting => { p with state := detectTransition P p.write_buf }
  | .ProcessingRequest k =>
    if direction = .Read then
      let est := P.bpeCount ((P.get k).extract_request_text p.write_buf)
      { p with state := .ProcessingResponse k est }
    else p
  | .ProcessingResponse k est =>
    match (P.get k).parse_response p.read_buf with
    | some _ => { p with state := .Finished }
    | none => { p with state := .ProcessingResponse k est }
  | .Finished => { p with state := .Finished }

/-- `StreamProcessor::handle_event(direction, data, ..)`: the
`Finished`-state early return (a write triggers a reset, anything else is
ignored), then buffer management with the hard caps, then the state
machine. -/
def StreamProcessor.handle_event (P : ParserEnv) (direction : LlmDirection)
    (data : List Nat) (p : StreamProcessor) : StreamProcessor :=
  if p.state = .Finished ∧ direction ≠ .Write then p
  else
    let p := if p.state = .Finished then p.reset else p
    match direction with
    | .Write =>
      if p.write_buf.length + data.length > MAX_REQUEST_BUFFER_SIZE then p.reset
      else stateTransition P .Write { p with write_buf := p.write_buf ++ data }
    | .Read =>
      if p.read_buf.length + data.length > MAX_RESPONSE_BUFFER_SIZE then p.reset
      else stateTransition P .Read { p with read_buf := p.read_buf ++ data }
    | _ => p

/-! ### SSL_EVENTS ring-buffer handler
(`honeybeepf/src/probes/builtin/llm/mod.rs`, `LlmProbe::attach`) -/

/-- The fields of `LlmEvent` that the handler closure reads (`tid` is the
`metadata._pad` slot, and `buf` models the 4096-byte payload array). -/
structure LlmEvent where
  pid : Nat
  tid : Nat
  is_handshake : Nat
  rw : Nat
  len : Nat
  buf_filled : Nat
  buf : List Nat

/-- The per-(pid, tid) stream map, as an association list. -/
def StreamMap := List ((Nat × Nat) × StreamProcessor)

/-- `HashMap` lookup. -/
def mapFind (m : StreamMap) (k : Nat × Nat) : Option StreamProcessor :=
  (m.find? (fun e => e.1 = k)).map (·.2)

/-- `HashMap` insert-or-replace. -/
def mapInsert (m : StreamMap) (k : Nat × Nat) (v : StreamProcessor) : StreamMap :=
  match m with
  | [] => [(k, v)]
  | e :: rest => if e.1 = k then (k, v) :: rest else e :: mapInsert rest k v

/-- External actions the handler closure performs besides the map update.
The closure's only such action is feeding the event to the dissector
(`processor.handle_event`); in particular it keeps no counters. -/
inductive HandlerAction
  | handleEvent (key : Nat × Nat) (direction : LlmDirection) (dataLen : Nat)
deriving DecidableEq, Repr

/-- The `SSL_EVENTS` handler closure: drop handshake-flagged events, drop
events with a zero buffer-filled flag or zero length, and otherwise feed
`buf[..min(len, MAX_SSL_BUF_SIZE)]` to the per-(pid, tid) processor
(created on first observation).  Returns the updated map and the list of
actions performed. -/
def ssl_event_handler (P : ParserEnv) (m : StreamMap) (event : LlmEvent) :
    StreamMap × List HandlerAction :=
  let direction := LlmDirection.ofU8 event.rw
  if event.is_handshake = 1 then (m, [])
  else if event.buf_filled = 0 ∨ event.len = 0 then (m, [])
  else
    let key := (event.pid, event.tid)
    let processor := (mapFind m key).getD StreamProcessor.new
    let data := event.buf.take (min event.len MAX_SSL_BUF_SIZE)
    (mapInsert m key (processor.handle_event P direction data),
     [.handleEvent key direction data.length])

/-! ### Uprobe attachment and re-discovery
(`honeybeepf/src/probes/builtin/llm/mod.rs`, `attach_probes_to_path` and
`attach_new_targets_for_pids`)

Each call to `attach_uprobe(bpf, prog, func, path)` is recorded as the
triple `(prog, func, path)`; the oracle `ok` says whether a given attach
call succeeds (the aya `program.attach` outcome). -/

/-- `str::contains` for Lean strings. -/
def strContains (s pat : String) : Bool :=
  contains_pattern s.data pat.data

/-- The six mandatory attach calls of `attach_probes_to_path`, in source
order; a failure of any of them aborts the function with `Err` via `?`. -/
def mandatoryAttaches : List (String × String) :=
  [("probe_ssl_rw_enter", "SSL_read"),
   ("probe_ssl_read_exit", "SSL_read"),
   ("probe_ssl_rw_enter", "SSL_write"),
   ("probe_ssl_write_exit", "SSL_write"),
   ("probe_ssl_do_handshake_enter", "SSL_do_handshake"),
   ("probe_ssl_do_handshake_exit", "SSL_do_handshake")]

/-- The four optional attach calls (`let _ = attach_uprobe(..)`) for the
`SSL_write_ex` / `SSL_read_ex` variants, whose results are discarded. -/
def optionalAttaches : List (String × String) :=
  [("probe_ssl_rw_ex_enter", "SSL_write_ex"),
   ("probe_ssl_write_ex_exit", "SSL_write_ex"),
   ("probe_ssl_rw_ex_enter", "SSL_read_ex"),
   ("probe_ssl_read_ex_exit", "SSL_read_ex")]

/-- Run a list of mandatory attach calls in order, stopping after the
first failure.  Returns whether all succeeded, plus the calls made. -/
def runMandatory (ok : String → String → String → Bool) (path : String) :
    List (String × String) → Bool × List (String × String × String)
  | [] => (true, [])
  | (prog, fn) :: rest =>
    if ok prog fn path then
      let r := runMandatory ok path rest
      (r.1, (prog, fn, path) :: r.2)
    else (false, [(prog, fn, path)])

/-- `attach_probes_to_path(bpf, path)`: the six mandatory attach calls
(aborting on the first failure) followed, on success, by the four optional
attempts.  Returns `Ok`/`Err` as a `Bool`, plus every attach call made. -/
def attach_probes_to_path (ok : String → String → String → Bool) (path : String) :
    Bool × List (String × String × String) :=
  let m := runMandatory ok path mandatoryAttaches
  if m.1 then (true, m.2 ++ optionalAttaches.map (fun c => (c.1, c.2, path)))
  else (false, m.2)

/-- `attach_new_targets_for_pids(bpf, known, pids)` after target discovery:
iterate over the discovered library paths, skipping `libcrypto` paths and
paths already in the known-targets set; otherwise run
`attach_probes_to_path` and insert the path into the set on success.
Returns the new known set and every attach call made. -/
def attach_new_targets (ok : String → String → String → Bool)
    (known : List String) : List String → List String × List (String × String × String)
  | [] => (known, [])
  | path :: rest =>
    if strContains path "libcrypto" then attach_new_targets ok known rest
    else if path ∈ known then attach_new_targets ok known rest
    else
      let a := attach_probes_to_path ok path
      let known' := if a.1 then path :: known else known
      let r := attach_new_targets ok known' rest
      (r.1, a.2 ++ r.2)

/-! ### Container-id extraction (`honeybeepf/src/k8s.rs`) -/

/-- Split off the part of `l` before the first occurrence of `c`,
returning it together with the rest. -/
def breakAtChar (c : Char) : List Char → Option (List Char × List Char)
  | [] => none
  | x :: xs =>
    if x = c then some ([], xs)
    else (breakAtChar c xs).map (fun p => (x :: p.1, p.2))

/-- `line.splitn(3, ':').nth(2)`: everything after the second `:`, when
the line has at least two colons. -/
def splitn3Nth2 (line : List Char) : Option (List Char) := do
  let p1 ← breakAtChar ':' line
  let p2 ← breakAtChar ':' p1.2
  pure p2.2

/-- `path.rsplit('/').next()`: the final path segment. -/
def lastSegmentOf (path : List Char) : List Char :=
  (path.reverse.takeWhile (fun c => c ≠ '/')).reverse

/-- `inner.rsplit('-').next()`: the part after the last dash (the whole
string when there is no dash). -/
def afterLastDash (s : List Char) : List Char :=
  (s.reverse.takeWhile (fun c => c ≠ '-')).reverse

/-- `u8::is_ascii_hexdigit` on a character. -/
def isAsciiHexDigit (c : Char) : Bool :=
  (48 ≤ c.toNat ∧ c.toNat ≤ 57) ∨ (97 ≤ c.toNat ∧ c.toNat ≤ 102) ∨
    (65 ≤ c.toNat ∧ c.toNat ≤ 70)

/-- `is_container_id(s)`: a 64-character ASCII hex string.  (`s.len()` in
the source counts bytes; a string whose characters are all ASCII hex
digits has equal byte and character counts, and any non-ASCII character
fails the digit test on both sides.) -/
def is_container_id (s : List Char) : Bool :=
  s.length = 64 && s.all isAsciiHexDigit

/-- `str::ends_with` on generic lists. -/
def endsWithL {α : Type} [DecidableEq α] (l pat : List α) : Bool :=
  decide (l.reverse.take pat.length = pat.reverse)

/-- Loop of `str::trim_end_matches`: strip the suffix `pat` as long as it
is present.  `fuel` is an iteration budget; each round shortens the list
by at least one element, so `l.length + 1` is always enough. -/
def trimEndAux {α : Type} [DecidableEq α] (pat : List α) :
    Nat → List α → List α
  | 0, l => l
  | fuel + 1, l =>
    if pat ≠ [] ∧ endsWithL l pat then
      trimEndAux pat fuel (l.take (l.length - pat.length))
    else l

/-- `l.trim_end_matches(pat)`: remove every trailing repetition of
`pat`. -/
def trimEndMatches {α : Type} [DecidableEq α] (l pat : List α) : List α :=
  trimEndAux pat (l.length + 1) l

/-- The characters of `".scope"`. -/
def scopeSuffix : List Char := ['.', 's', 'c', 'o', 'p', 'e']

/-- `parse_container_id_from_cgroup_line(line)`: take the path after the
second colon; require one of the container keywords; then return the first
12 characters of the 64-hex id found either after the last dash of the
`.scope`-trimmed terminal segment or as the terminal segment itself. -/
def parse_container_id_from_cgroup_line (line : List Char) :
    Option (List Char) :=
  match splitn3Nth2 line with
  | none => none
  | some path =>
    if ¬ (contains_pattern path "kubepods".data
          || contains_pattern path "docker".data
          || contains_pattern path "containerd".data) then none
    else
      let lastSegment := lastSegmentOf path
      let scopeHit :=
        if endsWithL lastSegment scopeSuffix then
          let hexId := afterLastDash (trimEndMatches lastSegment scopeSuffix)
          if is_container_id hexId then some (hexId.take 12) else none
        else none
      match scopeHit with
      | some r => some r
      | none =>
        if is_container_id lastSegment then some (lastSegment.take 12)
        else none

/-! ### LLM provider usage parsing
(`honeybeepf/src/probes/builtin/llm/http/providers/usage.rs` and
`honeybeepf/src/probes/builtin/llm/http/protocol.rs`) -/

/-- `serde_json::Value`.  `num n` is a `Number` stored as `u64`/`i64`
(`as_u64` succeeds exactly on the non-negative ones); `numFloat` is a
`Number` stored as `f64`, on which `as_u64` always fails, its payload
being irrelevant to every operation the parser performs. -/
inductive Json
  | null
  | bool (b : Bool)
  | num (n : Int)
  | numFloat
  | str (s : String)
  | arr (elems : List Json)
  | obj (fields : List (String × Json))

/-- `Value::get(key)`: field lookup on objects, `None` elsewhere. -/
def Json.get : Json → String → Option Json
  | .obj fields, key => (fields.find? (fun f => f.1 = key)).map (·.2)
  | _, _ => none

/-- `Value::as_u64`. -/
def Json.as_u64 : Json → Option Nat
  | .num n => if 0 ≤ n then some n.toNat else none
  | _ => none

/-- `Value::as_str`. -/
def Json.as_str : Json → Option String
  | .str s => some s
  | _ => none

/-- `str::split(sep)`: split a character list at every occurrence of the
separator (an empty input yields the single piece `[]`, as in Rust). -/
def splitChar (sep : Char) : List Char → List (List Char)
  | [] => [[]]
  | x :: xs =>
    if x = sep then [] :: splitChar sep xs
    else
      match splitChar sep xs with
      | r :: rs => (x :: r) :: rs
      | [] => [[x]]

/-- `get_nested_value(json, path)`: walk the keys of `path.split('.')`
with `?` propagation. -/
def get_nested_value (json : Json) (path : String) : Option Json :=
  (splitChar '.' path.data).foldlM (fun cur key => cur.get (String.mk key)) json

/-- `ResponseConfig` of a provider (`providers/config.rs`). -/
structure ResponseConfig where
  usage_path : String
  prompt_tokens : String
  completion_tokens : String
  thoughts_tokens : Option String
  model_path : String

/-- `UsageInfo` (`llm/types.rs`). -/
structure UsageInfo where
  prompt_tokens : Nat
  completion_tokens : Nat
  thoughts_tokens : Option Nat
  model : Option String
deriving DecidableEq, Repr

/-- `ConfigurableProvider::parse_usage(json)`. -/
def parse_usage (cfg : ResponseConfig) (json : Json) : Option UsageInfo := do
  let usage ← get_nested_value json cfg.usage_path
  let prompt ← (get_nested_value usage cfg.prompt_tokens).bind Json.as_u64
  let completion ← (get_nested_value usage cfg.completion_tokens).bind Json.as_u64
  let thoughts := (cfg.thoughts_tokens.bind (fun path => get_nested_value usage path)).bind Json.as_u64
  let model := (get_nested_value json cfg.model_path).bind Json.as_str
  pure { prompt_tokens := prompt, completion_tokens := completion,
         thoughts_tokens := thoughts, model := model }

/-- `parse_response_json_value(val)` (`protocol.rs`), parameterised by the
provider registry: a top-level `error` field short-circuits to the
zero-token record, otherwise the first provider whose `parse_usage`
succeeds wins. -/
def parse_response_json_value (providers : List ResponseConfig) (val : Json) :
    Option UsageInfo :=
  if (val.get "error").isSome then
    some { prompt_tokens := 0, completion_tokens := 0,
           thoughts_tokens := none, model := none }
  else providers.findSome? (fun cfg => parse_usage cfg val)

/-! ### Concrete fixtures used by witnesses -/

/-- A trivial parser environment: nothing detected, nothing parsed. -/
def constParserEnv : ParserEnv :=
  { h1 := { detect_request := fun _ => none, extract_request_text := fun _ => [],
            parse_response := fun _ => none },
    h2 := { detect_request := fun _ => none, extract_request_text := fun _ => [],
            parse_response := fun _ => none },
    bpeCount := fun _ => 0 }

/-- The OpenAI provider response configuration from the registry defaults
(also exercised by the source's own unit tests). -/
def openaiResponseConfig : ResponseConfig :=
  { usage_path := "usage", prompt_tokens := "prompt_tokens",
    completion_tokens := "completion_tokens", thoughts_tokens := none,
    model_path := "model" }

/-- A complete OpenAI-shaped response value. -/
def okJson : Json :=
  .obj [("model", .str "gpt-4"),
        ("usage", .obj [("prompt_tokens", .num 10), ("completion_tokens", .num 20)])]

/-- A response whose usage object lacks the completion-token count. -/
def missingJson : Json :=
  .obj [("usage", .obj [("prompt_tokens", .num 10)])]

/-- A response with an explicit top-level `error` field. -/
def errJson : Json :=
  .obj [("error", .str "overloaded")]

/-! ## Theorems -/

/-- The kernel hash loop ignores a zero-filled tail immediately:
a leading NUL (or exhausted fuel/buffer) stops it. -/
theorem ebpfHashLoop_replicate_zero (fuel k h : Nat) :
    ebpfHashLoop fuel (List.replicate k 0) h = h := by
  cases fuel with
  | zero => rfl
  | succ f =>
    cases k with
    | zero => rfl
    | succ m => simp [List.replicate, ebpfHashLoop]

/-- The two FNV-1a loops agree on a NUL-free byte string that fits the
kernel buffer, for every starting hash and iteration budget. -/
theorem simpleHashLoop_eq_ebpf (s : List Nat) :
    ∀ (fuel h : Nat), (∀ b ∈ s, b ≠ 0) → s.length ≤ fuel →
      simpleHashLoop s h = ebpfHashLoop fuel (s ++ List.replicate (fuel - s.length) 0) h := by
  induction s with
  | nil =>
    intro fuel h _ _
    simpa [simpleHashLoop] using (ebpfHashLoop_replicate_zero fuel fuel h).symm
  | cons b rest ih =>
    intro fuel h hnz hlen
    cases fuel with
    | zero => simp at hlen
    | succ f =>
      have hb : b ≠ 0 := hnz b (List.mem_cons_self b rest)
      have hrest : ∀ x ∈ rest, x ≠ 0 := fun x hx => hnz x (List.mem_cons_of_mem b hx)
      have hlen2 : rest.length ≤ f := by simpa using hlen
      have hsub : f + 1 - (rest.length + 1) = f - rest.length := by omega
      simp only [simpleHashLoop, List.cons_append, ebpfHashLoop, List.length_cons, hsub,
        if_neg hb]
      exact ih f (fnvStep h b) hrest hlen2

/-- C1: for every NUL-free byte string `s` that fits the kernel's
256-byte filename buffer, the user-space `simple_hash` over the path
bytes equals the kernel-side `simple_hash` over the zero-initialised
buffer holding `s`: both perform FNV-1a-64 (offset basis
`0xcbf29ce484222325`, prime `0x100000001b3`, XOR then wrapping multiply)
and stop at the first NUL or at length 256, whichever comes first. -/
theorem hash_identity (s : List Nat) (hnz : ∀ b ∈ s, b ≠ 0)
    (hlen : s.length ≤ MAX_FILENAME_LEN) :
    simple_hash s = ebpf_simple_hash (kernelBuffer s) :=
  simpleHashLoop_eq_ebpf s MAX_FILENAME_LEN FNV_OFFSET_BASIS hnz hlen

/-- C1 witness: the hash identity evaluated at the path `/etc` (bytes
`[47, 101, 116, 99]`). -/
theorem hash_identity_witness :
    (∀ b ∈ [47, 101, 116, 99], b ≠ 0) ∧
    ([47, 101, 116, 99] : List Nat).length ≤ MAX_FILENAME_LEN ∧
    simple_hash [47, 101, 116, 99] = ebpf_simple_hash (kernelBuffer [47, 101, 116, 99]) :=
  ⟨by decide, by decide, hash_identity [47, 101, 116, 99] (by decide) (by decide)⟩

/-- C8 counterexample: with the raw `setrlimit` call failing (returning
`-1`) and the bytecode loader succeeding, `bump_memlock_rlimit` still
returns `Ok(())` and `HoneyBeeEngine::new` succeeds — engine construction
does not fail on rlimit failure, contrary to the claim. -/
theorem rlimit_failure_cex :
    (bump_memlock_rlimit (-1)).1 = Except.ok () ∧
    engine_new (-1) (Except.ok ()) = Except.ok () :=
  ⟨rfl, rfl⟩

/-- C8 (amended): if raising the locked-memory rlimit fails at startup,
the failure is only logged as a warning; `bump_memlock_rlimit` returns
`Ok(())` anyway and engine construction proceeds, succeeding whenever the
bytecode loader succeeds. -/
theorem rlimit_failure_warns_and_continues (ret : Int) (h : ret ≠ 0) :
    (bump_memlock_rlimit ret).2 = ["Failed to increase rlimit"] ∧
    ∀ loadResult, engine_new ret loadResult = loadResult := by
  refine ⟨by simp [bump_memlock_rlimit, h], fun loadResult => ?_⟩
  show ((bump_memlock_rlimit ret).1).bind (fun _ => loadResult) = loadResult
  simp [bump_memlock_rlimit, h, Except.bind]

/-- C8 witness: the amended behaviour at the concrete failing return
value `-1`. -/
theorem rlimit_failure_witness :
    ((-1 : Int) ≠ 0) ∧
    (bump_memlock_rlimit (-1)).2 = ["Failed to increase rlimit"] ∧
    engine_new (-1) (Except.error "load failed") = Except.error "load failed" := by
  have h := rlimit_failure_warns_and_continues (-1) (by decide)
  exact ⟨by decide, h.1, h.2 (Except.error "load failed")⟩

/-- `decode_chunked_body` returns a CRLF-free buffer unchanged: the
framing check at the top of the function short-circuits. -/
theorem decode_chunked_body_noCRLF (b : List Nat)
    (h : contains_pattern b CRLF = false) : decode_chunked_body b = b := by
  simp [decode_chunked_body, h]

/-- C7 counterexample: the correctly chunk-encoded payload
`"5\r\n2\r\nab\r\n0\r\n\r\n"` (a single 5-byte chunk whose data
`"2\r\nab"` itself looks chunk-encoded) decodes to `"2\r\nab"`, but
decoding that result again yields `"ab"`, so
`decode_chunked_body (decode_chunked_body b) ≠ decode_chunked_body b`. -/
theorem chunked_decode_idempotence_cex :
    chunkEncode hexBytes [[50, 13, 10, 97, 98]] =
      [53, 13, 10, 50, 13, 10, 97, 98, 13, 10, 48, 13, 10, 13, 10] ∧
    decode_chunked_body (chunkEncode hexBytes [[50, 13, 10, 97, 98]]) =
      [50, 13, 10, 97, 98] ∧
    decode_chunked_body (decode_chunked_body (chunkEncode hexBytes [[50, 13, 10, 97, 98]])) =
      [97, 98] ∧
    decode_chunked_body (decode_chunked_body (chunkEncode hexBytes [[50, 13, 10, 97, 98]])) ≠
      decode_chunked_body (chunkEncode hexBytes [[50, 13, 10, 97, 98]]) := by
  refine ⟨by decide, by decide, by decide, by decide⟩

/-- C7 (amended): for a correctly chunk-encoded payload whose decoded
bytes contain no `\r\n` (so the output really carries no chunk framing),
decoding the result of a decode yields the same bytes as the single
decode. -/
theorem chunked_decode_idempotent (chunks : List (List Nat))
    (h : contains_pattern (decode_chunked_body (chunkEncode hexBytes chunks)) CRLF = false) :
    decode_chunked_body (decode_chunked_body (chunkEncode hexBytes chunks)) =
      decode_chunked_body (chunkEncode hexBytes chunks) :=
  decode_chunked_body_noCRLF _ h

/-- C7 witness: the amended idempotence at the two-chunk payload
`"2\r\nab\r\n1\r\nc\r\n0\r\n\r\n"`, whose single decode is `"abc"`. -/
theorem chunked_decode_idempotent_witness :
    contains_pattern (decode_chunked_body (chunkEncode hexBytes [[97, 98], [99]])) CRLF = false ∧
    decode_chunked_body (decode_chunked_body (chunkEncode hexBytes [[97, 98], [99]])) =
      decode_chunked_body (chunkEncode hexBytes [[97, 98], [99]]) :=
  ⟨by decide, chunked_decode_idempotent [[97, 98], [99]] (by decide)⟩

/-- C3 counterexample: starting from the empty known-targets set,
delivering an exec event whose discovered libraries are
`/usr/lib/libssl.so.3` (with every attach call succeeding) performs ten
uprobe attach calls against that path, not six: the six mandatory
entry/exit attachments for `SSL_read`, `SSL_write`, `SSL_do_handshake`
are followed by four optional attach calls for `SSL_write_ex` and
`SSL_read_ex`. -/
theorem exec_attach_six_cex :
    (attach_new_targets (fun _ _ _ => true) [] ["/usr/lib/libssl.so.3"]).2.length = 10 ∧
    (attach_new_targets (fun _ _ _ => true) [] ["/usr/lib/libssl.so.3"]).2.length ≠ 6 := by
  refine ⟨by decide, by decide⟩

/-- C3 (amended): starting from the empty known-targets set, one exec
event for a pid whose memory map lists `/usr/lib/libssl.so.3` causes
exactly ten attach calls against that path — entry and exit for each of
`SSL_read`, `SSL_write`, `SSL_do_handshake`, plus optional entry and exit
attempts for `SSL_write_ex` and `SSL_read_ex` — after which the path is
in the known-targets set, and a subsequent exec event for the same pid
(same discovered libraries) causes zero new attach calls. -/
theorem exec_attach_rediscovery :
    (attach_new_targets (fun _ _ _ => true) [] ["/usr/lib/libssl.so.3"]).2 =
      (mandatoryAttaches ++ optionalAttaches).map
        (fun c => (c.1, c.2, "/usr/lib/libssl.so.3")) ∧
    (attach_new_targets (fun _ _ _ => true) [] ["/usr/lib/libssl.so.3"]).1 =
      ["/usr/lib/libssl.so.3"] ∧
    (attach_new_targets (fun _ _ _ => true)
      (attach_new_targets (fun _ _ _ => true) [] ["/usr/lib/libssl.so.3"]).1
      ["/usr/lib/libssl.so.3"]).2 = [] := by
  refine ⟨by decide, by decide, by decide⟩

/-- C9 counterexample: a handshake-flagged event is dropped outright —
the stream map is unchanged and the handler performs no action at all, so
in particular nothing counts the event (the claim's "counted"). -/
theorem handshake_counted_cex :
    ssl_event_handler constParserEnv [((7, 8), StreamProcessor.new)]
      { pid := 7, tid := 8, is_handshake := 1, rw := 2, len := 5,
        buf_filled := 1, buf := [1, 2, 3, 4, 5] } =
      ([((7, 8), StreamProcessor.new)], []) := rfl

/-- C9 (amended): every handshake-flagged event, and every event whose
buffer-filled flag is zero or whose length is zero, is dropped by the
`SSL_EVENTS` handler without being fed to the dissector and without any
other action (no counting): the per-(pid, tid) stream state is exactly
the one before the event. -/
theorem ssl_handler_drops (P : ParserEnv) (m : StreamMap) (e : LlmEvent)
    (h : e.is_handshake = 1 ∨ e.buf_filled = 0 ∨ e.len = 0) :
    ssl_event_handler P m e = (m, []) := by
  by_cases h1 : e.is_handshake = 1
  · simp [ssl_event_handler, h1]
  · rcases h with h | h | h
    · exact absurd h h1
    · simp [ssl_event_handler, h1, h]
    · simp [ssl_event_handler, h1, h]

/-- C9 witness: dropping an unfilled event on a concrete map. -/
theorem ssl_handler_drops_witness :
    ((1 : Nat) = 1 ∨ (0 : Nat) = 0 ∨ (5 : Nat) = 0) ∧
    ssl_event_handler constParserEnv [((1, 2), StreamProcessor.new)]
      { pid := 1, tid := 2, is_handshake := 0, rw := 0, len := 5,
        buf_filled := 0, buf := [9, 9] } =
      ([((1, 2), StreamProcessor.new)], []) :=
  ⟨Or.inr (Or.inl rfl),
   ssl_handler_drops constParserEnv [((1, 2), StreamProcessor.new)]
     { pid := 1, tid := 2, is_handshake := 0, rw := 0, len := 5,
       buf_filled := 0, buf := [9, 9] } (Or.inr (Or.inl rfl))⟩

/-- The state-machine step of `handle_event` never writes the buffers. -/
theorem stateTransition_buffers (P : ParserEnv) (direction : LlmDirection)
    (p : StreamProcessor) :
    (stateTransition P direction p).write_buf = p.write_buf ∧
    (stateTransition P direction p).read_buf = p.read_buf := by
  unfold stateTransition
  rcases p with ⟨st, w, r⟩
  cases st <;> dsimp <;> try exact ⟨rfl, rfl⟩
  case ProcessingRequest k =>
    by_cases hd : direction = .Read <;> simp [hd]
  case ProcessingResponse k est =>
    cases (P.get k).parse_response r <;> simp

/-- C4 counterexample: a read event of one byte delivered to a processor
in the `Finished` state does not overflow the 16 MiB response cap, yet
its payload is not appended — the processor (state and both buffers) is
left unchanged, contradicting "in all other cases the event's payload is
appended to the buffer matching its direction". -/
theorem buffer_caps_cex :
    StreamProcessor.handle_event constParserEnv .Read [1]
      { state := .Finished, write_buf := [], read_buf := [] } =
      { state := .Finished, write_buf := [], read_buf := [] } ∧
    ([] : List Nat).length + [1].length ≤ MAX_RESPONSE_BUFFER_SIZE ∧
    (StreamProcessor.handle_event constParserEnv .Read [1]
      { state := .Finished, write_buf := [], read_buf := [] }).read_buf ≠ [] ++ [1] := by
  refine ⟨rfl, by decide, by decide⟩

/-- C4 (amended): for every stream processor in a non-`Finished` state
and every read or write event: if appending a write would push the
request buffer past the 8 MiB cap, or appending a read would push the
response buffer past the 16 MiB cap, `handle_event` resets the stream
(state back to `Detecting`, both buffers cleared) instead of appending;
otherwise the payload is appended to the buffer matching the direction
(a read or write arriving in the `Finished` state is governed by the
reset-or-ignore rule of the `Finished` early return instead). -/
theorem buffer_caps (P : ParserEnv) (p : StreamProcessor) (data : List Nat)
    (hs : p.state ≠ .Finished) :
    (p.write_buf.length + data.length > MAX_REQUEST_BUFFER_SIZE →
       p.handle_event P .Write data = p.reset) ∧
    (p.write_buf.length + data.length ≤ MAX_REQUEST_BUFFER_SIZE →
       (p.handle_event P .Write data).write_buf = p.write_buf ++ data ∧
       (p.handle_event P .Write data).read_buf = p.read_buf) ∧
    (p.read_buf.length + data.length > MAX_RESPONSE_BUFFER_SIZE →
       p.handle_event P .Read data = p.reset) ∧
    (p.read_buf.length + data.length ≤ MAX_RESPONSE_BUFFER_SIZE →
       (p.handle_event P .Read data).read_buf = p.read_buf ++ data ∧
       (p.handle_event P .Read data).write_buf = p.write_buf) := by
  refine ⟨fun hover => ?_, fun hunder => ?_, fun hover => ?_, fun hunder => ?_⟩
  · simp [StreamProcessor.handle_event, hs, hover]
  · have hle : ¬ p.write_buf.length + data.length > MAX_REQUEST_BUFFER_SIZE := by omega
    simp only [StreamProcessor.handle_event, hs, if_neg, false_and, if_false, hle]
    exact (stateTransition_buffers P .Write { p with write_buf := p.write_buf ++ data })
  · simp [StreamProcessor.handle_event, hs, hover]
  · have hle : ¬ p.read_buf.length + data.length > MAX_RESPONSE_BUFFER_SIZE := by omega
    simp only [StreamProcessor.handle_event, hs, if_neg, false_and, if_false, hle]
    have h2 := stateTransition_buffers P .Read { p with read_buf := p.read_buf ++ data }
    exact ⟨h2.2, h2.1⟩

/-- C4 witness: appending within the caps on a concrete detecting
processor. -/
theorem buffer_caps_witness :
    ({ state := .Detecting, write_buf := [5], read_buf := [] } : StreamProcessor).state ≠
      .Finished ∧
    ([5] : List Nat).length + [1, 2].length ≤ MAX_REQUEST_BUFFER_SIZE ∧
    (StreamProcessor.handle_event constParserEnv .Write [1, 2]
      { state := .Detecting, write_buf := [5], read_buf := [] }).write_buf = [5] ++ [1, 2] ∧
    (StreamProcessor.handle_event constParserEnv .Write [1, 2]
      { state := .Detecting, write_buf := [5], read_buf := [] }).read_buf = [] :=
  ⟨by decide, by decide,
   ((buffer_caps constParserEnv
      { state := .Detecting, write_buf := [5], read_buf := [] } [1, 2]
      (by decide)).2.1 (by decide)).1,
   ((buffer_caps constParserEnv
      { state := .Detecting, write_buf := [5], read_buf := [] } [1, 2]
      (by decide)).2.1 (by decide)).2⟩

/-- A write event arriving in the `Finished` state: the early-return
reset empties both buffers, so the subsequent cap check sees only the
payload length, and on success the append lands in the fresh buffer. -/
theorem handle_event_finished_write (P : ParserEnv) (p : StreamProcessor)
    (data : List Nat) (hs : p.state = .Finished) :
    p.handle_event P .Write data =
      (if data.length > MAX_REQUEST_BUFFER_SIZE then
        { state := .Detecting, write_buf := [], read_buf := [] }
       else stateTransition P .Write { state := .Detecting, write_buf := data, read_buf := [] }) := by
  unfold StreamProcessor.handle_event
  simp [hs, StreamProcessor.reset]

/-- C10 counterexample: a write event whose payload alone exceeds the
8 MiB request cap, delivered to a processor in the `Finished` state, is
not appended: the stream is reset and the triggering write's bytes are
discarded, so the write buffer ends empty rather than holding the
payload. -/
theorem finished_write_cex :
    (StreamProcessor.handle_event constParserEnv .Write
        (List.replicate (MAX_REQUEST_BUFFER_SIZE + 1) 65)
        { state := .Finished, write_buf := [], read_buf := [] }).write_buf = [] ∧
    List.replicate (MAX_REQUEST_BUFFER_SIZE + 1) 65 ≠ ([] : List Nat) := by
  constructor
  · rw [handle_event_finished_write constParserEnv _ _ rfl,
      if_pos (by rw [List.length_replicate]; exact Nat.lt_succ_self _)]
  · intro h
    have := congrArg List.length h
    simp [List.length_replicate] at this

/-- C10 (amended): a write event delivered to a processor in the
`Finished` state first resets the stream (both buffers cleared, state
back to `Detecting`); provided the payload itself does not exceed the
8 MiB request cap it is then appended, so the triggering write becomes
the first bytes of the new stream and protocol detection runs on it
within the same call (otherwise the processor is left freshly reset).  A
read event arriving in the `Finished` state leaves the state and both
buffers unchanged. -/
theorem finished_write_resets_then_appends (P : ParserEnv) (p : StreamProcessor)
    (data : List Nat) (hs : p.state = .Finished) :
    (data.length ≤ MAX_REQUEST_BUFFER_SIZE →
       (p.handle_event P .Write data).write_buf = data ∧
       (p.handle_event P .Write data).read_buf = [] ∧
       (p.handle_event P .Write data).state = detectTransition P data) ∧
    (data.length > MAX_REQUEST_BUFFER_SIZE →
       p.handle_event P .Write data = p.reset) ∧
    (∀ rdata, p.handle_event P .Read rdata = p) := by
  refine ⟨fun hle => ?_, fun hover => ?_, fun rdata => ?_⟩
  · have hres : p.handle_event P .Write data =
        stateTransition P .Write { state := .Detecting, write_buf := data, read_buf := [] } := by
      rw [handle_event_finished_write P p data hs, if_neg (by omega)]
    rw [hres]
    exact ⟨rfl, rfl, rfl⟩
  · rw [handle_event_finished_write P p data hs, if_pos hover]
    rcases p with ⟨st, w, r⟩
    simp only [StreamProcessor.reset]
  · simp [StreamProcessor.handle_event, hs]

/-- C10 witness: a two-byte write arriving in the `Finished` state with
nonempty stale buffers becomes the new stream's first bytes. -/
theorem finished_write_witness :
    ({ state := .Finished, write_buf := [7], read_buf := [8] } : StreamProcessor).state =
      .Finished ∧
    ([1, 2] : List Nat).length ≤ MAX_REQUEST_BUFFER_SIZE ∧
    (StreamProcessor.handle_event constParserEnv .Write [1, 2]
      { state := .Finished, write_buf := [7], read_buf := [8] }).write_buf = [1, 2] ∧
    (StreamProcessor.handle_event constParserEnv .Write [1, 2]
      { state := .Finished, write_buf := [7], read_buf := [8] }).read_buf = [] ∧
    StreamProcessor.handle_event constParserEnv .Read [9]
      { state := .Finished, write_buf := [7], read_buf := [8] } =
      { state := .Finished, write_buf := [7], read_buf := [8] } :=
  ⟨rfl, by decide,
   ((finished_write_resets_then_appends constParserEnv
      { state := .Finished, write_buf := [7], read_buf := [8] } [1, 2] rfl).1 (by decide)).1,
   ((finished_write_resets_then_appends constParserEnv
      { state := .Finished, write_buf := [7], read_buf := [8] } [1, 2] rfl).1 (by decide)).2.1,
   (finished_write_resets_then_appends constParserEnv
      { state := .Finished, write_buf := [7], read_buf := [8] } [1, 2] rfl).2.2 [9]⟩

/-- C5: `parse_usage` reads the usage object via the provider's
configured dot-notation path and produces exactly the record whose prompt
and completion token counts come from the configured fields under it
(as `u64`s), whose optional reasoning-token count comes from the
configured optional path, and whose optional model name comes from the
configured model path at the root; it returns nothing whenever the
prompt-token or completion-token field is missing or not a `u64` (in
particular when the usage object itself is absent); and a JSON value
with a top-level `error` field short-circuits
`parse_response_json_value` to the zero-token record. -/
theorem parse_usage_spec (cfg : ResponseConfig) (json : Json) :
    (∀ u, parse_usage cfg json = some u →
       ∃ usage, get_nested_value json cfg.usage_path = some usage ∧
         (get_nested_value usage cfg.prompt_tokens).bind Json.as_u64 = some u.prompt_tokens ∧
         (get_nested_value usage cfg.completion_tokens).bind Json.as_u64 =
           some u.completion_tokens ∧
         u.thoughts_tokens =
           (cfg.thoughts_tokens.bind (fun path => get_nested_value usage path)).bind
             Json.as_u64 ∧
         u.model = (get_nested_value json cfg.model_path).bind Json.as_str) ∧
    (∀ usage, get_nested_value json cfg.usage_path = some usage →
       ((get_nested_value usage cfg.prompt_tokens).bind Json.as_u64 = none ∨
        (get_nested_value usage cfg.completion_tokens).bind Json.as_u64 = none) →
       parse_usage cfg json = none) ∧
    (get_nested_value json cfg.usage_path = none → parse_usage cfg json = none) ∧
    (∀ providers, (json.get "error").isSome = true →
       parse_response_json_value providers json =
         some { prompt_tokens := 0, completion_tokens := 0,
                thoughts_tokens := none, model := none }) := by
  refine ⟨?_, ?_, ?_, ?_⟩
  · intro u h
    cases e1 : get_nested_value json cfg.usage_path with
    | none => simp [parse_usage, e1] at h
    | some usage =>
      cases e2 : (get_nested_value usage cfg.prompt_tokens).bind Json.as_u64 with
      | none => simp [parse_usage, e1, e2] at h
      | some prompt =>
        cases e3 : (get_nested_value usage cfg.completion_tokens).bind Json.as_u64 with
        | none => simp [parse_usage, e1, e2, e3] at h
        | some completion =>
          simp [parse_usage, e1, e2, e3] at h
          subst h
          exact ⟨usage, rfl, e2, e3, rfl, rfl⟩
  · intro usage e1 hb
    rcases hb with hb | hb
    · simp [parse_usage, e1, hb]
    · cases e2 : (get_nested_value usage cfg.prompt_tokens).bind Json.as_u64 <;>
        simp [parse_usage, e1, e2, hb]
  · intro e1
    simp [parse_usage, e1]
  · intro providers herr
    simp [parse_response_json_value, herr]

/-- C5 witness: with the OpenAI configuration, a usage object missing the
completion-token field parses to nothing, and a response with a top-level
`error` field short-circuits to the zero-token record. -/
theorem parse_usage_spec_witness :
    parse_usage openaiResponseConfig missingJson = none ∧
    parse_response_json_value [openaiResponseConfig] errJson =
      some { prompt_tokens := 0, completion_tokens := 0,
             thoughts_tokens := none, model := none } :=
  ⟨(parse_usage_spec openaiResponseConfig missingJson).2.1
     (.obj [("prompt_tokens", .num 10)]) rfl (Or.inr rfl),
   (parse_usage_spec openaiResponseConfig errJson).2.2.2 [openaiResponseConfig] rfl⟩

/-- A segment that ends in `".scope"` contains the non-hex character `.`
and therefore never passes `is_container_id`. -/
theorem scope_segment_not_container_id (s : List Char)
    (h : endsWithL s scopeSuffix = true) : is_container_id s = false := by
  have htake : s.reverse.take scopeSuffix.length = scopeSuffix.reverse :=
    of_decide_eq_true h
  have hdot : ('.' : Char) ∈ s := by
    have h1 : ('.' : Char) ∈ s.reverse.take scopeSuffix.length := by
      rw [htake]; decide
    exact List.mem_reverse.mp (List.take_subset _ _ h1)
  cases hb : is_container_id s
  · rfl
  · unfold is_container_id at hb
    have hall := (Bool.and_eq_true _ _).mp hb |>.2
    have := List.all_eq_true.mp hall '.' hdot
    simp [isAsciiHexDigit] at this

/-- C6: container-id extraction from a cgroup line.  The line is split
into at most three colon-separated fields and the third (the path) is
taken — no third field means no id; the path must contain `kubepods`,
`docker`, or `containerd`; given a keyword, the first 12 characters of
the 64-hex id are returned when the terminal path segment is a
64-character hex string, or when the terminal segment ends in `.scope`
and the part after the last dash of the scope-trimmed name is a
64-character hex string; in every other case nothing is returned. -/
theorem container_id_extraction (line : List Char) :
    (splitn3Nth2 line = none → parse_container_id_from_cgroup_line line = none) ∧
    ∀ path, splitn3Nth2 line = some path →
      ((contains_pattern path "kubepods".data || contains_pattern path "docker".data ||
          contains_pattern path "containerd".data) = false →
        parse_container_id_from_cgroup_line line = none) ∧
      ((contains_pattern path "kubepods".data || contains_pattern path "docker".data ||
          contains_pattern path "containerd".data) = true →
        (is_container_id (lastSegmentOf path) = true →
          parse_container_id_from_cgroup_line line =
            some ((lastSegmentOf path).take 12)) ∧
        (endsWithL (lastSegmentOf path) scopeSuffix = true →
          is_container_id (afterLastDash (trimEndMatches (lastSegmentOf path) scopeSuffix)) =
            true →
          parse_container_id_from_cgroup_line line =
            some ((afterLastDash (trimEndMatches (lastSegmentOf path) scopeSuffix)).take 12)) ∧
        (is_container_id (lastSegmentOf path) = false →
          ¬ (endsWithL (lastSegmentOf path) scopeSuffix = true ∧
             is_container_id (afterLastDash (trimEndMatches (lastSegmentOf path) scopeSuffix)) =
               true) →
          parse_container_id_from_cgroup_line line = none)) := by
  constructor
  · intro h
    simp [parse_container_id_from_cgroup_line, h]
  · intro path hpath
    constructor
    · intro hkw
      simp [parse_container_id_from_cgroup_line, hpath, hkw]
    · intro hkw
      refine ⟨?_, ?_, ?_⟩
      · intro hplain
        have hscope : endsWithL (lastSegmentOf path) scopeSuffix = false := by
          cases he : endsWithL (lastSegmentOf path) scopeSuffix
          · rfl
          · rw [scope_segment_not_container_id _ he] at hplain
            exact absurd hplain (by simp)
        simp [parse_container_id_from_cgroup_line, hpath, hkw, hscope, hplain]
      · intro hscope hhex
        simp [parse_container_id_from_cgroup_line, hpath, hkw, hscope, hhex]
      · intro hplain hnot
        cases he : endsWithL (lastSegmentOf path) scopeSuffix
        · simp [parse_container_id_from_cgroup_line, hpath, hkw, he, hplain]
        · have hh : is_container_id
              (afterLastDash (trimEndMatches (lastSegmentOf path) scopeSuffix)) = false := by
            cases hi : is_container_id
                (afterLastDash (trimEndMatches (lastSegmentOf path) scopeSuffix))
            · rfl
            · exact absurd ⟨he, hi⟩ hnot
          simp [parse_container_id_from_cgroup_line, hpath, hkw, he, hh, hplain]

/-- C6 witness: a docker cgroup line whose terminal segment is a 64-hex
id yields its first 12 characters. -/
theorem container_id_extraction_witness :
    parse_container_id_from_cgroup_line
      "0::/docker/aaaaaaaaaaaaaaaaaaaaaaaaaaaaaaaaaaaaaaaaaaaaaaaaaaaaaaaaaaaaaaaa".toList =
      some "aaaaaaaaaaaa".toList :=
  (((container_id_extraction
      "0::/docker/aaaaaaaaaaaaaaaaaaaaaaaaaaaaaaaaaaaaaaaaaaaaaaaaaaaaaaaaaaaaaaaa".toList).2
      "/docker/aaaaaaaaaaaaaaaaaaaaaaaaaaaaaaaaaaaaaaaaaaaaaaaaaaaaaaaaaaaaaaaa".toList
      (by decide)).2 (by decide)).1 (by decide) |>.trans (by decide)

/-- Scanning a string-literal body from the in-string state consumes it
together with its closing quote and returns to the out-of-string state,
at any depth. -/
theorem fbbAux_strBody {body : List Nat} (h : StrBody body) :
    ∀ (rest : List Nat) (i : Nat) (d : Int),
      fbbAux (body ++ 34 :: rest) i d true false =
        fbbAux rest (i + body.length + 1) d false false := by
  induction h with
  | nil =>
    intro rest i d
    simp [fbbAux]
  | plain b body hb hbs _ ih =>
    intro rest i d
    have h1 : fbbAux ((b :: body) ++ 34 :: rest) i d true false =
        fbbAux (body ++ 34 :: rest) (i + 1) d true false := by
      simp [fbbAux, hb, hbs]
    rw [h1, ih]
    congr 1
    simp
    omega
  | esc b body _ ih =>
    intro rest i d
    have h1 : fbbAux ((92 :: b :: body) ++ 34 :: rest) i d true false =
        fbbAux (body ++ 34 :: rest) (i + 2) d true false := by
      simp [fbbAux]
    rw [h1, ih]
    congr 1
    simp
    omega

/-- Scanning a balanced token or token sequence at depth at least 1
passes straight through it: the scanner neither returns nor changes
state. -/
theorem fbbAux_bal {fl : Bool} {t : List Nat} (h : Bal fl t) :
    ∀ (rest : List Nat) (i : Nat) (d : Int), 1 ≤ d →
      fbbAux (t ++ rest) i d false false =
        fbbAux rest (i + t.length) d false false := by
  induction h with
  | plain b h1 h2 h3 =>
    intro rest i d _
    simp [fbbAux, h1, h2, h3]
  | str body hb =>
    intro rest i d _
    have hassoc : (34 :: body ++ [34]) ++ rest = 34 :: (body ++ 34 :: rest) := by simp
    rw [hassoc]
    have h1 : fbbAux (34 :: (body ++ 34 :: rest)) i d false false =
        fbbAux (body ++ 34 :: rest) (i + 1) d true false := by
      simp [fbbAux]
    rw [h1, fbbAux_strBody hb]
    congr 1
    simp
    omega
  | obj inner _ ih =>
    intro rest i d hd
    have hassoc : (123 :: inner ++ [125]) ++ rest = 123 :: (inner ++ 125 :: rest) := by simp
    rw [hassoc]
    have h1 : fbbAux (123 :: (inner ++ 125 :: rest)) i d false false =
        fbbAux (inner ++ 125 :: rest) (i + 1) (d + 1) false false := by
      simp [fbbAux]
    rw [h1, ih _ _ _ (by omega)]
    have hne : ¬ d = 0 := by omega
    have h2 : fbbAux (125 :: rest) (i + 1 + inner.length) (d + 1) false false =
        fbbAux rest (i + 1 + inner.length + 1) d false false := by
      simp [fbbAux, hne]
    rw [h2]
    congr 1
    simp
    omega
  | nil =>
    intro rest i d _
    simp
  | cons t rest2 _ _ iht ihrest =>
    intro rest i d hd
    rw [List.append_assoc, iht _ _ _ hd, ihrest _ _ _ hd]
    congr 1
    simp
    omega

/-- Scanning a balanced object from depth 0 returns the index of its
closing brace. -/
theorem fbb_obj {inner : List Nat} (hin : Bal false inner) (rest : List Nat) (i : Nat) :
    fbbAux ((123 :: inner ++ [125]) ++ rest) i 0 false false =
      some (i + inner.length + 1) := by
  have hassoc : (123 :: inner ++ [125]) ++ rest = 123 :: (inner ++ 125 :: rest) := by simp
  rw [hassoc]
  have h1 : fbbAux (123 :: (inner ++ 125 :: rest)) i 0 false false =
      fbbAux (inner ++ 125 :: rest) (i + 1) (0 + 1) false false := by
    simp [fbbAux]
  rw [h1, fbbAux_bal hin _ _ _ (by omega)]
  have hz : (0 : Int) + 1 - 1 = 0 := by omega
  simp [fbbAux, hz]
  omega

/-- `find('{')` over a brace-free chunk followed by a `{`. -/
theorem findOpenBrace_prepend (xs ys : List Nat) (h : ∀ b ∈ xs, b ≠ 123) :
    findOpenBrace (xs ++ 123 :: ys) = some xs.length := by
  induction xs with
  | nil => simp [findOpenBrace]
  | cons x xs ih =>
    have hx : x ≠ 123 := h x (List.mem_cons_self _ _)
    have hxs : ∀ b ∈ xs, b ≠ 123 := fun b hb => h b (List.mem_cons_of_mem _ hb)
    simp [findOpenBrace, hx, ih hxs]

/-- `find('{')` fails on a brace-free list. -/
theorem findOpenBrace_none (xs : List Nat) (h : ∀ b ∈ xs, b ≠ 123) :
    findOpenBrace xs = none := by
  induction xs with
  | nil => rfl
  | cons x xs ih =>
    have hx : x ≠ 123 := h x (List.mem_cons_self _ _)
    simp [findOpenBrace, hx, ih (fun b hb => h b (List.mem_cons_of_mem _ hb))]

/-- One round of the extraction loop: when the bytes from `pos` on are a
brace-free filler followed by a balanced object, the loop emits exactly
that object and continues right after its closing brace. -/
theorem extractAllAux_step (bytes : List Nat) (pos fuel : Nat)
    (filler inner rest : List Nat)
    (hdrop : bytes.drop pos = filler ++ (123 :: inner ++ [125]) ++ rest)
    (hfiller : ∀ b ∈ filler, b ≠ 123) (hin : Bal false inner) :
    extractAllAux bytes pos (fuel + 1) =
      (123 :: inner ++ [125]) ::
        extractAllAux bytes (pos + filler.length + inner.length + 2) fuel := by
  have hstart : bytes.drop (pos + filler.length) = (123 :: inner ++ [125]) ++ rest := by
    rw [← List.drop_drop, hdrop]
    have : filler ++ (123 :: inner ++ [125]) ++ rest =
        filler ++ ((123 :: inner ++ [125]) ++ rest) := by simp
    rw [this, List.drop_left]
  have hfind : findOpenBrace (bytes.drop pos) = some filler.length := by
    rw [hdrop]
    have : filler ++ (123 :: inner ++ [125]) ++ rest =
        filler ++ 123 :: (inner ++ [125] ++ rest) := by simp
    rw [this]
    exact findOpenBrace_prepend filler _ hfiller
  have hfbb : find_balanced_brace bytes (pos + filler.length) =
      some (pos + filler.length + inner.length + 1) := by
    unfold find_balanced_brace
    rw [hstart]
    exact fbb_obj hin rest (pos + filler.length)
  have hslice : slice bytes (pos + filler.length)
      (pos + filler.length + inner.length + 1 + 1) = 123 :: inner ++ [125] := by
    unfold slice
    rw [hstart]
    have hlen : pos + filler.length + inner.length + 1 + 1 - (pos + filler.length) =
        (123 :: inner ++ [125]).length := by
      simp
      omega
    rw [hlen, List.take_left]
  simp only [extractAllAux, hfind, hfbb, hslice]

/-- The extraction loop stops on a brace-free tail. -/
theorem extractAllAux_none (bytes : List Nat) (pos fuel : Nat)
    (h : ∀ b ∈ bytes.drop pos, b ≠ 123) :
    extractAllAux bytes pos fuel = [] := by
  cases fuel with
  | zero => rfl
  | succ f => simp [extractAllAux, findOpenBrace_none _ h]

/-- C2: for an input of the form `pfx ++ J1 ++ mid ++ J2 ++ sfx` where
`J1` and `J2` are balanced JSON objects (brace-balanced with
string-literal awareness: braces inside strings are ignored and a
backslash inside a string escapes the next byte, and no string contains a
lone unescaped quote) and the fillers contain no `{` that could open a
context, `extract_h2_json_all` returns exactly the two slices
`[J1, J2]`, in that order. -/
theorem extractor_two_objects (pfx J1 mid J2 sfx : List Nat)
    (h1 : JsonObj J1) (h2 : JsonObj J2)
    (hp : ∀ b ∈ pfx, b ≠ 123) (hm : ∀ b ∈ mid, b ≠ 123)
    (hs : ∀ b ∈ sfx, b ≠ 123) :
    extract_h2_json_all (pfx ++ J1 ++ mid ++ J2 ++ sfx) = [J1, J2] := by
  obtain ⟨in1, hb1, e1⟩ := h1
  obtain ⟨in2, hb2, e2⟩ := h2
  subst e1
  subst e2
  set bytes := pfx ++ (123 :: in1 ++ [125]) ++ mid ++ (123 :: in2 ++ [125]) ++ sfx
    with hbytes
  have hlenb : 2 ≤ bytes.length := by
    simp [hbytes]
    omega
  obtain ⟨f, hf⟩ : ∃ f, bytes.length + 1 = f + 1 + 1 + 1 := ⟨bytes.length - 2, by omega⟩
  have hstep1 : extractAllAux bytes 0 (f + 1 + 1 + 1) =
      (123 :: in1 ++ [125]) ::
        extractAllAux bytes (0 + pfx.length + in1.length + 2) (f + 1 + 1) := by
    refine extractAllAux_step bytes 0 (f + 1 + 1) pfx in1
      (mid ++ (123 :: in2 ++ [125]) ++ sfx) ?_ hp hb1
    simp [hbytes, List.append_assoc]
  have hdrop2 : bytes.drop (0 + pfx.length + in1.length + 2) =
      mid ++ (123 :: in2 ++ [125]) ++ sfx := by
    have hb2eq : bytes = (pfx ++ (123 :: in1 ++ [125])) ++
        (mid ++ ((123 :: in2 ++ [125]) ++ sfx)) := by
      simp [hbytes, List.append_assoc]
    have hlen1 : 0 + pfx.length + in1.length + 2 =
        (pfx ++ (123 :: in1 ++ [125])).length := by
      simp
      omega
    rw [hb2eq, hlen1, List.drop_left]
    simp [List.append_assoc]
  have hstep2 : extractAllAux bytes (0 + pfx.length + in1.length + 2) (f + 1 + 1) =
      (123 :: in2 ++ [125]) ::
        extractAllAux bytes
          (0 + pfx.length + in1.length + 2 + mid.length + in2.length + 2) (f + 1) := by
    exact extractAllAux_step bytes _ (f + 1) mid in2 sfx hdrop2 hm hb2
  have hdrop3 : bytes.drop
      (0 + pfx.length + in1.length + 2 + mid.length + in2.length + 2) = sfx := by
    have hb3eq : bytes = ((pfx ++ (123 :: in1 ++ [125])) ++
        (mid ++ (123 :: in2 ++ [125]))) ++ sfx := by
      simp [hbytes, List.append_assoc]
    have hlen2 : 0 + pfx.length + in1.length + 2 + mid.length + in2.length + 2 =
        ((pfx ++ (123 :: in1 ++ [125])) ++ (mid ++ (123 :: in2 ++ [125]))).length := by
      simp
      omega
    rw [hb3eq, hlen2, List.drop_left]
  have hstep3 : extractAllAux bytes
      (0 + pfx.length + in1.length + 2 + mid.length + in2.length + 2) (f + 1) = [] := by
    refine extractAllAux_none bytes _ _ ?_
    rw [hdrop3]
    exact hs
  show extractAllAux bytes 0 (bytes.length + 1) = _
  rw [hf, hstep1, hstep2, hstep3]

/-- C2 witness: the extractor on
`"hi" ++ {"a":"}{"} ++ " " ++ {} ++ "!"` — the first object's string
literal contains both brace characters, which the scanner must ignore —
returns exactly the two objects. -/
theorem extractor_two_objects_witness :
    JsonObj [123, 34, 97, 34, 58, 34, 125, 123, 34, 125] ∧
    extract_h2_json_all
      ([104, 105] ++ [123, 34, 97, 34, 58, 34, 125, 123, 34, 125] ++ [32] ++
        [123, 125] ++ [33]) =
      [[123, 34, 97, 34, 58, 34, 125, 123, 34, 125], [123, 125]] := by
  have sb1 : StrBody [97] := StrBody.plain 97 [] (by decide) (by decide) StrBody.nil
  have t1 : Bal true [34, 97, 34] := Bal.str [97] sb1
  have t2 : Bal true [58] := Bal.plain 58 (by decide) (by decide) (by decide)
  have sb2 : StrBody [125, 123] :=
    StrBody.plain 125 [123] (by decide) (by decide)
      (StrBody.plain 123 [] (by decide) (by decide) StrBody.nil)
  have t3 : Bal true [34, 125, 123, 34] := Bal.str [125, 123] sb2
  have seq1 : Bal false [34, 97, 34, 58, 34, 125, 123, 34] :=
    Bal.cons [34, 97, 34] [58, 34, 125, 123, 34] t1
      (Bal.cons [58] [34, 125, 123, 34] t2
        (Bal.cons [34, 125, 123, 34] [] t3 Bal.nil))
  have hJ1 : JsonObj [123, 34, 97, 34, 58, 34, 125, 123, 34, 125] :=
    ⟨[34, 97, 34, 58, 34, 125, 123, 34], seq1, rfl⟩
  have hJ2 : JsonObj [123, 125] := ⟨[], Bal.nil, rfl⟩
  exact ⟨hJ1,
    extractor_two_objects [104, 105] _ [32] _ [33] hJ1 hJ2
      (by decide) (by decide) (by decide)⟩

end HoneybeePF
